import Mathlib

/-!
Verification of the Estimate Engine of the smart-renovation repository.

The pricing functions of `estimator.py` and the quote-generation flow of
`main.py` (`generate_estimate`) are embedded over `ℚ`, with the Python
`round(x, 2)` modelled by `round2` (round `x * 100` to the nearest integer,
divide back by 100). String dispatch uses lower-casing and substring
containment, as the code does with `svc.lower()` and the Python `in` operator.
-/

namespace SmartRenovation

/-- Model of Python `round(x, 2)` on exact rationals. -/
def round2 (q : ℚ) : ℚ := (round (q * 100) : ℚ) / 100

/-- Embeds `estimator.paint_estimate(wall_area_m2, coverage, coats, wastage, price_per_litre)`.
The Python defaults are `coverage=10.0, coats=2, wastage=0.1, price_per_litre=250.0`;
call sites below pass them explicitly. Returns `(litres_needed, material_cost)`. -/
def paint_estimate (wall_area_m2 coverage coats wastage price_per_litre : ℚ) : ℚ × ℚ :=
  if wall_area_m2 ≤ 0 then (0, 0)
  else
    let litres := (wall_area_m2 / coverage) * coats * (1 + wastage)
    let material_cost := litres * price_per_litre
    (round2 litres, round2 material_cost)

/-- Embeds `estimator.tiles_estimate(floor_area_m2, wastage, rate_per_m2)`.
Python defaults `wastage=0.05, rate_per_m2=600.0`. Returns `(area_with_wastage, material_cost)`. -/
def tiles_estimate (floor_area_m2 wastage rate_per_m2 : ℚ) : ℚ × ℚ :=
  if floor_area_m2 ≤ 0 then (0, 0)
  else
    let qty := floor_area_m2 * (1 + wastage)
    let cost := qty * rate_per_m2
    (round2 qty, round2 cost)

/-- Embeds `estimator.plumbing_estimate(num_points, base_charge, per_point)`.
Python defaults `num_points=1, base_charge=500.0, per_point=300.0`. -/
def plumbing_estimate (num_points : ℤ) (base_charge per_point : ℚ) : ℚ :=
  if num_points ≤ 0 then 0
  else round2 (base_charge + num_points * per_point)

/-- Embeds `estimator.generic_labour(area_m2, labour_rate_per_m2)`.
Python default `labour_rate_per_m2=30.0`. -/
def generic_labour (area_m2 labour_rate_per_m2 : ℚ) : ℚ :=
  if area_m2 ≤ 0 then 0
  else round2 (area_m2 * labour_rate_per_m2)

/-- Contiguous-substring test on character lists: `charsContain pat s` is
true when `pat` occurs inside `s`. -/
def charsContain (pat : List Char) : List Char → Bool
  | [] => pat.isEmpty
  | c :: cs => pat.isPrefixOf (c :: cs) || charsContain pat cs

/-- Model of the Python substring test `pat in s`. -/
def str_contains (s pat : String) : Bool := charsContain pat.data s.data

/-- Model of the Python `str.lower()` (ASCII case folding, which covers the
service-name strings the application uses). -/
def str_lower (s : String) : String := ⟨s.data.map Char.toLower⟩

/-- The four pricing branches of `main.generate_estimate`. -/
inductive ServiceBranch
  | painting
  | tiles
  | plumbing
  | generic
deriving DecidableEq

/-- The numeric content of one generated estimate: the chosen branch, the
material quantity recorded in `material_qty`, the material cost and labour
cost where the branch produces them (`none` for plumbing, which has no
material/labour split), and the raw local `total` before it is stored. -/
structure EstimateOut where
  branch : ServiceBranch
  matQty : ℚ
  matCost : Option ℚ
  labour : Option ℚ
  total : ℚ
deriving DecidableEq

/-- The branch-selection and pricing core of `main.generate_estimate`:
lower-case the service name, test for the substrings "paint", "tile",
"plumb" in that order, and price with the corresponding formulas. -/
def generate_estimate (svc : String) (area : ℚ) (points : ℤ) : EstimateOut :=
  let s := str_lower svc
  if str_contains s "paint" then
    let pe := paint_estimate area 10 2 (1/10) 250
    let labour := generic_labour area 30
    ⟨.painting, pe.1, some pe.2, some labour, pe.2 + labour⟩
  else if str_contains s "tile" then
    let te := tiles_estimate area (1/20) 600
    let labour := generic_labour area 50
    ⟨.tiles, te.1, some te.2, some labour, te.2 + labour⟩
  else if str_contains s "plumb" then
    let pts : ℤ := if points > 0 then points else 1
    let pl := plumbing_estimate pts 500 300
    ⟨.plumbing, (pts : ℚ), none, none, pl⟩
  else
    let labour := generic_labour area 80
    let material := area * 150
    ⟨.generic, area, some material, some labour, labour + material⟩

/-- The stored total of `last_estimate`: `round(total, 2)`. -/
def quoted_total (svc : String) (area : ℚ) (points : ℤ) : ℚ :=
  round2 (generate_estimate svc area points).total

/-- One iteration of the paint-can packing loop in `main.generate_estimate`:
`cnt = int(needed // size)`, and if `cnt > 0` the count is recorded and
`needed` becomes `round(needed - cnt*size, 2)`. Returns `(count, new_needed)`. -/
def packPaintStep (needed size : ℚ) : ℤ × ℚ :=
  let cnt := ⌊needed / size⌋
  if cnt > 0 then (cnt, round2 (needed - cnt * size)) else (0, needed)

/-- The paint purchase-suggestion packing: greedy over can sizes 10, 4, 1
litres, then one extra 1-litre can if a positive residue remains. Returns
the counts of 10 L, 4 L and 1 L cans (the extra can included). -/
def packPaint (litres : ℚ) : ℤ × ℤ × ℤ :=
  let s1 := packPaintStep litres 10
  let s2 := packPaintStep s1.2 4
  let s3 := packPaintStep s2.2 1
  let c1 := if s3.2 > 0 then s3.1 + 1 else s3.1
  (s1.1, s2.1, c1)

/-- The comma-joined `"{count}×{size}L"` rendering of the paint packing, in
descending size order, as produced by joining the `cans` dict; when no can
was recorded the code falls back to `f"{litres} L"`. -/
def paint_suggestion_parts (litres : ℚ) : String :=
  let p := packPaint litres
  let entries : List (ℤ × String) :=
    (if p.1 > 0 then [(p.1, "10L")] else []) ++
    (if p.2.1 > 0 then [(p.2.1, "4L")] else []) ++
    (if p.2.2 > 0 then [(p.2.2, "1L")] else [])
  if entries.isEmpty then toString litres ++ " L"
  else String.intercalate ", " (entries.map fun e => toString e.1 ++ "×" ++ e.2)

/-- Stated from the specification text describing the paint packing rule, for
comparison with `packPaint` (which is embedded from the code): for each can
size largest first, `count = floor(remaining / size)`, subtract
`count * size` and re-round the remainder to 2 decimals; after all three
sizes, add one extra 1-litre can when a positive residue remains. -/
def packPaintSpec (litres : ℚ) : ℤ × ℤ × ℤ :=
  let c10 := ⌊litres / 10⌋
  let r1 := round2 (litres - c10 * 10)
  let c4 := ⌊r1 / 4⌋
  let r2 := round2 (r1 - c4 * 4)
  let c1 := ⌊r2 / 1⌋
  let r3 := round2 (r2 - c1 * 1)
  (c10, c4, if r3 > 0 then c1 + 1 else c1)

/-- Outcome of the tiles purchase suggestion: either the "No tiles required"
message or a box count together with the covered area it reports. -/
inductive TileSuggestion
  | noTiles
  | buyBoxes (n : ℤ) (covered : ℚ)
deriving DecidableEq

/-- The tiles purchase-suggestion block of `main.generate_estimate`:
`boxes = int(sqm // 1.2)`, plus one more box when `sqm % 1.2 > 0` (the Python
float `%` is `sqm - 1.2 * (sqm // 1.2)` here); the reported covered area is
`round(boxes * 1.2, 2)`. -/
def tiles_suggestion (sqm : ℚ) : TileSuggestion :=
  if sqm ≤ 0 then .noTiles
  else
    let box_cover : ℚ := 6/5
    let b0 := ⌊sqm / box_cover⌋
    let b1 := if sqm - box_cover * ⌊sqm / box_cover⌋ > 0 then b0 + 1 else b0
    .buyBoxes b1 (round2 ((b1 : ℚ) * box_cover))

/-- A rational that is an exact multiple of one hundredth, i.e. already
expressible with two decimal places. -/
def twoDec (q : ℚ) : Prop := ∃ n : ℤ, q * 100 = (n : ℚ)

/-- The function `round2` always lands on a multiple of one hundredth. -/
theorem round2_twoDec (q : ℚ) : twoDec (round2 q) :=
  ⟨round (q * 100), by rw [round2, div_mul_cancel₀ _ (by norm_num : (100:ℚ) ≠ 0)]⟩

/-- The function `round2` fixes every two-decimal value. -/
theorem round2_eq_self {q : ℚ} (h : twoDec q) : round2 q = q := by
  obtain ⟨n, hn⟩ := h
  rw [round2, hn, round_intCast, div_eq_iff (by norm_num : (100:ℚ) ≠ 0)]
  exact hn.symm

theorem round2_zero : round2 0 = 0 := by norm_num [round2]

theorem round2_mono {a b : ℚ} (h : a ≤ b) : round2 a ≤ round2 b := by
  have h1 : round (a * 100) ≤ round (b * 100) := by
    rw [round_eq, round_eq]
    exact Int.floor_le_floor (by linarith)
  rw [round2, round2]
  exact (div_le_div_iff_of_pos_right (by norm_num : (0:ℚ) < 100)).mpr (by exact_mod_cast h1)

theorem round2_nonneg {q : ℚ} (h : 0 ≤ q) : 0 ≤ round2 q := by
  have := round2_mono h
  rwa [round2_zero] at this

theorem twoDec_int (n : ℤ) : twoDec (n : ℚ) := ⟨n * 100, by push_cast; ring⟩

theorem twoDec_zero : twoDec (0 : ℚ) := ⟨0, by norm_num⟩

theorem twoDec_sub {a b : ℚ} (ha : twoDec a) (hb : twoDec b) : twoDec (a - b) := by
  obtain ⟨n, hn⟩ := ha
  obtain ⟨m, hm⟩ := hb
  exact ⟨n - m, by push_cast; rw [sub_mul, hn, hm]⟩

/-- Evaluation of `generate_estimate` on a service name containing "paint". -/
theorem gen_paint (svc : String) (area : ℚ) (points : ℤ)
    (h : str_contains (str_lower svc) "paint" = true) :
    generate_estimate svc area points =
      ⟨.painting, (paint_estimate area 10 2 (1/10) 250).1,
        some (paint_estimate area 10 2 (1/10) 250).2,
        some (generic_labour area 30),
        (paint_estimate area 10 2 (1/10) 250).2 + generic_labour area 30⟩ := by
  simp [generate_estimate, h]

/-- Evaluation of `generate_estimate` on a service name containing "tile" but not "paint". -/
theorem gen_tile (svc : String) (area : ℚ) (points : ℤ)
    (hp : str_contains (str_lower svc) "paint" = false)
    (ht : str_contains (str_lower svc) "tile" = true) :
    generate_estimate svc area points =
      ⟨.tiles, (tiles_estimate area (1/20) 600).1,
        some (tiles_estimate area (1/20) 600).2,
        some (generic_labour area 50),
        (tiles_estimate area (1/20) 600).2 + generic_labour area 50⟩ := by
  simp [generate_estimate, hp, ht]

/-- Evaluation of `generate_estimate` on a service name containing "plumb" but neither
"paint" nor "tile". -/
theorem gen_plumb (svc : String) (area : ℚ) (points : ℤ)
    (hp : str_contains (str_lower svc) "paint" = false)
    (ht : str_contains (str_lower svc) "tile" = false)
    (hb : str_contains (str_lower svc) "plumb" = true) :
    generate_estimate svc area points =
      ⟨.plumbing, ((max points 1 : ℤ) : ℚ), none, none,
        plumbing_estimate (max points 1) 500 300⟩ := by
  have hmax : (if points > 0 then points else 1) = max points 1 := by
    rcases le_or_lt points 0 with h | h
    · rw [if_neg (by omega), max_eq_right (by omega)]
    · rw [if_pos h, max_eq_left (by omega)]
  simp only [generate_estimate, hp, ht, hb, Bool.false_eq_true, if_false, if_true, hmax]

/-- Evaluation of `generate_estimate` on a service name containing none of "paint",
"tile", "plumb": the generic branch. -/
theorem gen_generic (svc : String) (area : ℚ) (points : ℤ)
    (hp : str_contains (str_lower svc) "paint" = false)
    (ht : str_contains (str_lower svc) "tile" = false)
    (hb : str_contains (str_lower svc) "plumb" = false) :
    generate_estimate svc area points =
      ⟨.generic, area, some (area * 150), some (generic_labour area 80),
        generic_labour area 80 + area * 150⟩ := by
  simp [generate_estimate, hp, ht, hb]

/-- Both components of `paint_estimate` are two-decimal values. -/
theorem paint_estimate_twoDec (a c k w p : ℚ) :
    twoDec (paint_estimate a c k w p).1 ∧ twoDec (paint_estimate a c k w p).2 := by
  simp only [paint_estimate]
  split
  · exact ⟨twoDec_zero, twoDec_zero⟩
  · exact ⟨round2_twoDec _, round2_twoDec _⟩

/-- Both components of `tiles_estimate` are two-decimal values. -/
theorem tiles_estimate_twoDec (a w r : ℚ) :
    twoDec (tiles_estimate a w r).1 ∧ twoDec (tiles_estimate a w r).2 := by
  simp only [tiles_estimate]
  split
  · exact ⟨twoDec_zero, twoDec_zero⟩
  · exact ⟨round2_twoDec _, round2_twoDec _⟩

theorem generic_labour_twoDec (a r : ℚ) : twoDec (generic_labour a r) := by
  simp only [generic_labour]
  split
  · exact twoDec_zero
  · exact round2_twoDec _

theorem plumbing_estimate_twoDec (p : ℤ) (b c : ℚ) : twoDec (plumbing_estimate p b c) := by
  simp only [plumbing_estimate]
  split
  · exact twoDec_zero
  · exact round2_twoDec _

/-- For a positive point count, the plumbing charge is simply
`base + points * per_point` at the default rates (no rounding can bite,
the value is an integer). -/
theorem plumbing_value (p : ℤ) (hp : 0 < p) :
    plumbing_estimate p 500 300 = 500 + 300 * (p : ℚ) := by
  rw [plumbing_estimate, if_neg (by omega)]
  have h : (500 + (p : ℚ) * 300) = ((500 + p * 300 : ℤ) : ℚ) := by push_cast; ring
  rw [h, round2_eq_self (twoDec_int _)]
  push_cast; ring

/-- Under a nonnegative two-decimal `needed` and a positive integer can
size, one packing step computes the floor count and the exact remainder
(the 2-decimal re-rounding is the identity there). -/
theorem packPaintStep_exact (needed size : ℚ) (k : ℤ) (hks : size = (k : ℚ))
    (hkp : 0 < size) (hn : 0 ≤ needed) (hd : twoDec needed) :
    packPaintStep needed size = (⌊needed / size⌋, needed - ⌊needed / size⌋ * size) := by
  simp only [packPaintStep]
  by_cases h : ⌊needed / size⌋ > 0
  · rw [if_pos h]
    have hdr : twoDec ((⌊needed / size⌋ : ℚ) * size) :=
      ⟨⌊needed / size⌋ * k * 100, by rw [hks]; push_cast; ring⟩
    rw [round2_eq_self (twoDec_sub hd hdr)]
  · rw [if_neg h]
    have h0 : ⌊needed / size⌋ = 0 :=
      le_antisymm (by omega) (Int.floor_nonneg.mpr (div_nonneg hn hkp.le))
    rw [h0]
    norm_num

/-- The floor count never overshoots: `⌊x / size⌋ * size ≤ x` for a
positive size. -/
theorem floor_count_le (x size : ℚ) (hs : 0 < size) : (⌊x / size⌋ : ℚ) * size ≤ x := by
  have h := Int.floor_le (x / size)
  calc (⌊x / size⌋ : ℚ) * size ≤ (x / size) * size := mul_le_mul_of_nonneg_right h hs.le
  _ = x := div_mul_cancel₀ x (ne_of_gt hs)

/-- For a nonnegative two-decimal litre amount, the packing loop computes
floor counts with exact remainders (each 2-decimal re-rounding is the
identity), it agrees with the spec-described greedy rule, and the final
residue is below one litre. -/
theorem packPaint_chain (l : ℚ) (hl : 0 ≤ l) (hd : twoDec l) :
    ∃ r1 r2 r3 : ℚ,
      packPaint l = (⌊l / (10:ℚ)⌋, ⌊r1 / (4:ℚ)⌋,
        if r3 > 0 then ⌊r2 / (1:ℚ)⌋ + 1 else ⌊r2 / (1:ℚ)⌋) ∧
      packPaintSpec l = packPaint l ∧
      r1 = l - ⌊l / (10:ℚ)⌋ * 10 ∧
      r2 = r1 - ⌊r1 / (4:ℚ)⌋ * 4 ∧
      r3 = r2 - ⌊r2 / (1:ℚ)⌋ * 1 ∧
      0 ≤ r1 ∧ 0 ≤ r2 ∧ r3 < 1 := by
  have e10 := packPaintStep_exact l 10 10 (by norm_num) (by norm_num) hl hd
  have hr1n : 0 ≤ l - ⌊l / (10:ℚ)⌋ * 10 := by
    have := floor_count_le l 10 (by norm_num)
    linarith
  have hr1d : twoDec (l - ⌊l / (10:ℚ)⌋ * 10) :=
    twoDec_sub hd ⟨⌊l / (10:ℚ)⌋ * 1000, by push_cast; ring⟩
  have e4 := packPaintStep_exact (l - ⌊l / (10:ℚ)⌋ * 10) 4 4 (by norm_num) (by norm_num)
    hr1n hr1d
  have hr2n : 0 ≤ (l - ⌊l / (10:ℚ)⌋ * 10) - ⌊(l - ⌊l / (10:ℚ)⌋ * 10) / (4:ℚ)⌋ * 4 := by
    have := floor_count_le (l - ⌊l / (10:ℚ)⌋ * 10) 4 (by norm_num)
    linarith
  have hr2d : twoDec ((l - ⌊l / (10:ℚ)⌋ * 10) - ⌊(l - ⌊l / (10:ℚ)⌋ * 10) / (4:ℚ)⌋ * 4) :=
    twoDec_sub hr1d ⟨⌊(l - ⌊l / (10:ℚ)⌋ * 10) / (4:ℚ)⌋ * 400, by push_cast; ring⟩
  have e1 := packPaintStep_exact
    ((l - ⌊l / (10:ℚ)⌋ * 10) - ⌊(l - ⌊l / (10:ℚ)⌋ * 10) / (4:ℚ)⌋ * 4) 1 1
    (by norm_num) (by norm_num) hr2n hr2d
  have hr3d : twoDec (((l - ⌊l / (10:ℚ)⌋ * 10) - ⌊(l - ⌊l / (10:ℚ)⌋ * 10) / (4:ℚ)⌋ * 4) -
      ⌊((l - ⌊l / (10:ℚ)⌋ * 10) - ⌊(l - ⌊l / (10:ℚ)⌋ * 10) / (4:ℚ)⌋ * 4) / (1:ℚ)⌋ * 1) :=
    twoDec_sub hr2d
      ⟨⌊((l - ⌊l / (10:ℚ)⌋ * 10) - ⌊(l - ⌊l / (10:ℚ)⌋ * 10) / (4:ℚ)⌋ * 4) / (1:ℚ)⌋ * 100,
        by push_cast; ring⟩
  have hr3lt : ((l - ⌊l / (10:ℚ)⌋ * 10) - ⌊(l - ⌊l / (10:ℚ)⌋ * 10) / (4:ℚ)⌋ * 4) -
      ⌊((l - ⌊l / (10:ℚ)⌋ * 10) - ⌊(l - ⌊l / (10:ℚ)⌋ * 10) / (4:ℚ)⌋ * 4) / (1:ℚ)⌋ * 1 < 1 := by
    have h := Int.lt_floor_add_one
      (((l - ⌊l / (10:ℚ)⌋ * 10) - ⌊(l - ⌊l / (10:ℚ)⌋ * 10) / (4:ℚ)⌋ * 4) / (1:ℚ))
    rw [div_one] at h
    have h2 : (⌊((l - ⌊l / (10:ℚ)⌋ * 10) - ⌊(l - ⌊l / (10:ℚ)⌋ * 10) / (4:ℚ)⌋ * 4) / (1:ℚ)⌋ : ℚ)
        = (⌊(l - ⌊l / (10:ℚ)⌋ * 10) - ⌊(l - ⌊l / (10:ℚ)⌋ * 10) / (4:ℚ)⌋ * 4⌋ : ℚ) := by
      rw [div_one]
    rw [h2]
    linarith
  refine ⟨_, _, _, ?_, ?_, rfl, rfl, rfl, hr1n, hr2n, hr3lt⟩
  · simp only [packPaint, e10, e4, e1]
  · simp only [packPaint, packPaintSpec, e10, e4, e1, round2_eq_self hr1d,
      round2_eq_self hr2d, round2_eq_self hr3d]

theorem paint_at_100 : paint_estimate 100 10 2 (1/10) 250 = (22, 5500) := by
  norm_num [paint_estimate, round2, round_eq]

theorem tiles_at_50 : tiles_estimate 50 (1/20) 600 = (105/2, 31500) := by
  norm_num [tiles_estimate, round2, round_eq]

theorem labour_at_100 : generic_labour 100 30 = 3000 := by
  norm_num [generic_labour, round2, round_eq]

theorem packPaint_at_22 : packPaint 22 = (2, 0, 2) := by
  norm_num [packPaint, packPaintStep, round2, round_eq]

theorem suggestion_at_22 : paint_suggestion_parts 22 = "2×10L, 2×1L" := by
  simp only [paint_suggestion_parts, packPaint_at_22]
  decide

theorem tiles_suggestion_at_52_5 : tiles_suggestion (105/2) = .buyBoxes 44 (264/5) := by
  norm_num [tiles_suggestion, round2, round_eq]

/-- Component form of `paint_estimate` at the default parameters: each
component is zero for nonpositive area and a rounded linear function of the
area otherwise. -/
theorem paint_comps (a : ℚ) :
    paint_estimate a 10 2 (1/10) 250 =
      ((if a ≤ 0 then 0 else round2 (a * (11/50))),
       (if a ≤ 0 then 0 else round2 (a * 55))) := by
  simp only [paint_estimate]
  split_ifs with h
  · rfl
  · rw [(by ring : (a / 10) * 2 * (1 + 1/10) = a * (11/50)),
        (by ring : a * (11/50) * 250 = a * 55)]

/-- Component form of `tiles_estimate` at the default parameters. -/
theorem tiles_comps (a : ℚ) :
    tiles_estimate a (1/20) 600 =
      ((if a ≤ 0 then 0 else round2 (a * (21/20))),
       (if a ≤ 0 then 0 else round2 (a * 630))) := by
  simp only [tiles_estimate]
  split_ifs with h
  · rfl
  · rw [(by ring : a * (1 + 1/20) = a * (21/20)),
        (by ring : a * (21/20) * 600 = a * 630)]

/-- Monotonicity of one zero-guarded rounded linear component. -/
theorem mono_piece {a1 a2 c : ℚ} (h : a1 ≤ a2) (hc : 0 ≤ c) :
    (if a1 ≤ 0 then (0:ℚ) else round2 (a1 * c)) ≤
      (if a2 ≤ 0 then (0:ℚ) else round2 (a2 * c)) := by
  split_ifs with h1 h2 h2
  · exact le_refl 0
  · exact round2_nonneg (mul_nonneg (not_le.mp h2).le hc)
  · exact absurd (le_trans h h2) h1
  · exact round2_mono (mul_le_mul_of_nonneg_right h hc)

/-- Claim C1: with the default parameters and positive area,
`paint_estimate` returns `litres = (area/10)*2*(1+0.10)` and
`materialCost = litres*250`, and `tiles_estimate` returns
`qty = area*(1+0.05)` and `materialCost = qty*600`, each rounded to two
decimals; in particular `paint_estimate 100 = (22, 5500)` and
`tiles_estimate 50 = (52.5, 31500)`. -/
theorem C1_default_formulas (area : ℚ) (h : 0 < area) :
    paint_estimate area 10 2 (1/10) 250 =
      (round2 ((area / 10) * 2 * (1 + 1/10)),
       round2 ((area / 10) * 2 * (1 + 1/10) * 250)) ∧
    tiles_estimate area (1/20) 600 =
      (round2 (area * (1 + 1/20)), round2 (area * (1 + 1/20) * 600)) ∧
    paint_estimate 100 10 2 (1/10) 250 = (22, 5500) ∧
    tiles_estimate 50 (1/20) 600 = (105/2, 31500) := by
  refine ⟨?_, ?_, paint_at_100, tiles_at_50⟩
  · rw [paint_estimate, if_neg (not_le.mpr h)]
  · rw [tiles_estimate, if_neg (not_le.mpr h)]

theorem C1_default_formulas_witness :
    (0:ℚ) < 100 ∧ paint_estimate 100 10 2 (1/10) 250 = (22, 5500) :=
  ⟨by norm_num, (C1_default_formulas 100 (by norm_num)).2.2.1⟩

/-- Claim C2: for nonpositive points the standalone `plumbing_estimate`
returns 0, while the quote-generation path prices plumbing with effective
points `max(points, 1)`, so the quoted total is `500 + 300*max(points,1)`
(hence 800 when points ≤ 0) and never the bare 500 callout alone. -/
theorem C2_plumbing_floor :
    (∀ points : ℤ, points ≤ 0 → plumbing_estimate points 500 300 = 0) ∧
    (∀ (svc : String) (area : ℚ) (points : ℤ),
      (generate_estimate svc area points).branch = .plumbing →
        quoted_total svc area points = 500 + 300 * ((max points 1 : ℤ) : ℚ) ∧
        (points ≤ 0 → quoted_total svc area points = 800) ∧
        quoted_total svc area points ≠ 500) := by
  constructor
  · intro points hp
    rw [plumbing_estimate, if_pos hp]
  · intro svc area points hbr
    by_cases hpa : str_contains (str_lower svc) "paint" = true
    · rw [gen_paint svc area points hpa] at hbr
      simp at hbr
    · simp only [Bool.not_eq_true] at hpa
      by_cases hti : str_contains (str_lower svc) "tile" = true
      · rw [gen_tile svc area points hpa hti] at hbr
        simp at hbr
      · simp only [Bool.not_eq_true] at hti
        by_cases hpl : str_contains (str_lower svc) "plumb" = true
        · have hmx : (0:ℤ) < max points 1 :=
            lt_of_lt_of_le zero_lt_one (le_max_right points 1)
          have hq : quoted_total svc area points = 500 + 300 * ((max points 1 : ℤ) : ℚ) := by
            rw [quoted_total, gen_plumb svc area points hpa hti hpl]
            show round2 (plumbing_estimate (max points 1) 500 300) = _
            rw [plumbing_value _ hmx,
              (by push_cast; ring :
                (500 + 300 * ((max points 1 : ℤ) : ℚ)) = ((500 + 300 * max points 1 : ℤ) : ℚ)),
              round2_eq_self (twoDec_int _)]
          refine ⟨hq, fun hple => ?_, ?_⟩
          · rw [hq, max_eq_right (by omega : points ≤ 1)]
            norm_num
          · rw [hq]
            have h1 : (1:ℚ) ≤ ((max points 1 : ℤ) : ℚ) := by
              exact_mod_cast le_max_right points 1
            intro heq
            linarith
        · simp only [Bool.not_eq_true] at hpl
          rw [gen_generic svc area points hpa hti hpl] at hbr
          simp at hbr

theorem C2_plumbing_floor_witness :
    ((-2:ℤ) ≤ 0 ∧ plumbing_estimate (-2) 500 300 = 0) ∧
    ((generate_estimate "Plumbing" 0 0).branch = .plumbing ∧
      quoted_total "Plumbing" 0 0 = 800) := by
  have hb : (generate_estimate "Plumbing" 0 0).branch = .plumbing := by
    rw [gen_plumb "Plumbing" 0 0 (by decide) (by decide) (by decide)]
  exact ⟨⟨by norm_num, C2_plumbing_floor.1 (-2) (by norm_num)⟩,
    ⟨hb, (C2_plumbing_floor.2 "Plumbing" 0 0 hb).2.1 (by norm_num)⟩⟩

/-- Claim C3: the quote flow selects the pricing branch by case-insensitive
substring match in precedence order paint, tile, plumb, otherwise the
generic branch with 80 per m² labour and 150 per m² material. -/
theorem C3_dispatch_precedence (svc : String) (area : ℚ) (points : ℤ) :
    (str_contains (str_lower svc) "paint" = true →
      (generate_estimate svc area points).branch = .painting) ∧
    (str_contains (str_lower svc) "paint" = false →
      str_contains (str_lower svc) "tile" = true →
      (generate_estimate svc area points).branch = .tiles) ∧
    (str_contains (str_lower svc) "paint" = false →
      str_contains (str_lower svc) "tile" = false →
      str_contains (str_lower svc) "plumb" = true →
      (generate_estimate svc area points).branch = .plumbing) ∧
    (str_contains (str_lower svc) "paint" = false →
      str_contains (str_lower svc) "tile" = false →
      str_contains (str_lower svc) "plumb" = false →
      (generate_estimate svc area points).branch = .generic ∧
      (generate_estimate svc area points).labour = some (generic_labour area 80) ∧
      (generate_estimate svc area points).matCost = some (area * 150)) := by
  refine ⟨fun hpa => ?_, fun hpa hti => ?_, fun hpa hti hpl => ?_, fun hpa hti hpl => ?_⟩
  · rw [gen_paint svc area points hpa]
  · rw [gen_tile svc area points hpa hti]
  · rw [gen_plumb svc area points hpa hti hpl]
  · rw [gen_generic svc area points hpa hti hpl]
    exact ⟨rfl, rfl, rfl⟩

theorem C3_dispatch_precedence_witness :
    str_contains (str_lower "Painting") "paint" = true ∧
    (generate_estimate "Painting" 1 0).branch = .painting :=
  ⟨by decide, (C3_dispatch_precedence "Painting" 1 0).1 (by decide)⟩

/-- Claim C4 fails as stated: in the generic branch the material cost is
`area * 150` with no rounding, so at `area = 1/10000` the stored material
cost is `0.015`, which is not a two-decimal value. -/
theorem C4_counterexample :
    (generate_estimate "Carpentry" (1/10000) 0).matCost = some (3/200) ∧
    ¬ twoDec (3/200) := by
  constructor
  · rw [gen_generic "Carpentry" (1/10000) 0 (by decide) (by decide) (by decide)]
    norm_num
  · rintro ⟨n, hn⟩
    have h2 : (n : ℚ) = 3/2 := by rw [← hn]; norm_num
    have h3 : (2 * n : ℤ) = 3 := by exact_mod_cast (by linarith : (2 * n : ℚ) = 3)
    omega

/-- Claim C4, amended: the stored total and every labour cost are rounded
to two decimals in every branch, and outside the generic branch so are the
material quantity and the material cost; the generic branch stores its raw
`area` as quantity and `area * 150` as material cost unrounded. -/
theorem C4_rounding_amended (svc : String) (area : ℚ) (points : ℤ) :
    twoDec (quoted_total svc area points) ∧
    (∀ l : ℚ, (generate_estimate svc area points).labour = some l → twoDec l) ∧
    ((generate_estimate svc area points).branch ≠ .generic →
      twoDec (generate_estimate svc area points).matQty ∧
      ∀ m : ℚ, (generate_estimate svc area points).matCost = some m → twoDec m) := by
  refine ⟨by rw [quoted_total]; exact round2_twoDec _, ?_, ?_⟩
  · intro l hl
    by_cases hpa : str_contains (str_lower svc) "paint" = true
    · rw [gen_paint svc area points hpa] at hl
      simp only [Option.some.injEq] at hl
      rw [← hl]
      exact generic_labour_twoDec area 30
    · simp only [Bool.not_eq_true] at hpa
      by_cases hti : str_contains (str_lower svc) "tile" = true
      · rw [gen_tile svc area points hpa hti] at hl
        simp only [Option.some.injEq] at hl
        rw [← hl]
        exact generic_labour_twoDec area 50
      · simp only [Bool.not_eq_true] at hti
        by_cases hpl : str_contains (str_lower svc) "plumb" = true
        · rw [gen_plumb svc area points hpa hti hpl] at hl
          simp at hl
        · simp only [Bool.not_eq_true] at hpl
          rw [gen_generic svc area points hpa hti hpl] at hl
          simp only [Option.some.injEq] at hl
          rw [← hl]
          exact generic_labour_twoDec area 80
  · intro hbr
    by_cases hpa : str_contains (str_lower svc) "paint" = true
    · rw [gen_paint svc area points hpa]
      refine ⟨(paint_estimate_twoDec area 10 2 (1/10) 250).1, ?_⟩
      intro m hm
      simp only [Option.some.injEq] at hm
      rw [← hm]
      exact (paint_estimate_twoDec area 10 2 (1/10) 250).2
    · simp only [Bool.not_eq_true] at hpa
      by_cases hti : str_contains (str_lower svc) "tile" = true
      · rw [gen_tile svc area points hpa hti]
        refine ⟨(tiles_estimate_twoDec area (1/20) 600).1, ?_⟩
        intro m hm
        simp only [Option.some.injEq] at hm
        rw [← hm]
        exact (tiles_estimate_twoDec area (1/20) 600).2
      · simp only [Bool.not_eq_true] at hti
        by_cases hpl : str_contains (str_lower svc) "plumb" = true
        · rw [gen_plumb svc area points hpa hti hpl]
          exact ⟨twoDec_int _, fun m hm => by simp at hm⟩
        · simp only [Bool.not_eq_true] at hpl
          rw [gen_generic svc area points hpa hti hpl] at hbr
          simp at hbr

theorem C4_rounding_amended_witness :
    (generate_estimate "Plumbing" 0 0).branch ≠ .generic ∧
    twoDec (generate_estimate "Plumbing" 0 0).matQty := by
  have hb : (generate_estimate "Plumbing" 0 0).branch ≠ .generic := by
    rw [gen_plumb "Plumbing" 0 0 (by decide) (by decide) (by decide)]
    decide
  exact ⟨hb, ((C4_rounding_amended "Plumbing" 0 0).2.2 hb).1⟩

/-- Claim C5: for a positive (two-decimal, as produced by `paint_estimate`)
litre amount, the purchase suggestion packing agrees with the
spec-described greedy rule over can sizes 10, 4, 1 with a residue can; at
22 litres it yields 2 ten-litre and 2 one-litre cans, "2×10L, 2×1L". -/
theorem C5_greedy_packing :
    (∀ litres : ℚ, 0 < litres → twoDec litres →
      packPaint litres = packPaintSpec litres) ∧
    packPaint 22 = (2, 0, 2) ∧
    paint_suggestion_parts 22 = "2×10L, 2×1L" := by
  refine ⟨fun litres hpos hd => ?_, packPaint_at_22, suggestion_at_22⟩
  obtain ⟨r1, r2, r3, -, hspec, -⟩ := packPaint_chain litres hpos.le hd
  exact hspec.symm

theorem C5_greedy_packing_witness :
    (0:ℚ) < 22 ∧ twoDec 22 ∧ packPaint 22 = packPaintSpec 22 :=
  ⟨by norm_num, twoDec_int 22, C5_greedy_packing.1 22 (by norm_num) (twoDec_int 22)⟩

/-- Claim C6: for positive tile quantity the suggested box count is
`ceil(qty / 1.2)` and the reported covered area is `boxes * 1.2` rounded
to two decimals; `qty = 52.5` yields 44 boxes covering 52.8 m²; for
`qty ≤ 0` the suggestion reports that no tiles are required. -/
theorem C6_tile_boxes (qty : ℚ) (h : 0 < qty) :
    tiles_suggestion qty =
      .buyBoxes ⌈qty / (6/5 : ℚ)⌉ (round2 ((⌈qty / (6/5 : ℚ)⌉ : ℚ) * (6/5))) ∧
    (∀ q : ℚ, q ≤ 0 → tiles_suggestion q = .noTiles) ∧
    tiles_suggestion (105/2) = .buyBoxes 44 (264/5) := by
  refine ⟨?_, fun q hq => by rw [tiles_suggestion, if_pos hq], tiles_suggestion_at_52_5⟩
  simp only [tiles_suggestion]
  rw [if_neg (not_le.mpr h)]
  have hb : (if qty - (6/5 : ℚ) * ⌊qty / (6/5 : ℚ)⌋ > 0
        then ⌊qty / (6/5 : ℚ)⌋ + 1 else ⌊qty / (6/5 : ℚ)⌋) = ⌈qty / (6/5 : ℚ)⌉ := by
    by_cases hc : qty - (6/5 : ℚ) * ⌊qty / (6/5 : ℚ)⌋ > 0
    · rw [if_pos hc]
      have hlt : (⌊qty / (6/5 : ℚ)⌋ : ℚ) < qty / (6/5 : ℚ) := by
        rw [lt_div_iff₀ (by norm_num : (0:ℚ) < 6/5)]
        linarith
      have h1 : ⌊qty / (6/5 : ℚ)⌋ < ⌈qty / (6/5 : ℚ)⌉ := by
        exact_mod_cast lt_of_lt_of_le hlt (Int.le_ceil (qty / (6/5 : ℚ)))
      have h2 := Int.ceil_le_floor_add_one (qty / (6/5 : ℚ))
      omega
    · rw [if_neg hc]
      push_neg at hc
      have hge : qty / (6/5 : ℚ) ≤ (⌊qty / (6/5 : ℚ)⌋ : ℚ) := by
        rw [div_le_iff₀ (by norm_num : (0:ℚ) < 6/5)]
        linarith
      have heq : (⌊qty / (6/5 : ℚ)⌋ : ℚ) = qty / (6/5 : ℚ) :=
        le_antisymm (Int.floor_le _) hge
      rw [← heq, Int.floor_intCast, Int.ceil_intCast]
  rw [hb]

theorem C6_tile_boxes_witness :
    (0:ℚ) < 105/2 ∧ tiles_suggestion (105/2) = .buyBoxes 44 (264/5) :=
  ⟨by norm_num, (C6_tile_boxes (105/2) (by norm_num)).2.2⟩

/-- Claim C7: nonpositive area and nonpositive points are defined
degenerate cases: the estimators return exact zeros (and, being total
functions, never raise). -/
theorem C7_degenerate_inputs (area : ℚ) (points : ℤ) (ha : area ≤ 0) (hp : points ≤ 0) :
    paint_estimate area 10 2 (1/10) 250 = (0, 0) ∧
    tiles_estimate area (1/20) 600 = (0, 0) ∧
    generic_labour area 30 = 0 ∧
    plumbing_estimate points 500 300 = 0 :=
  ⟨by rw [paint_estimate, if_pos ha], by rw [tiles_estimate, if_pos ha],
   by rw [generic_labour, if_pos ha], by rw [plumbing_estimate, if_pos hp]⟩

theorem C7_degenerate_inputs_witness :
    ((-1:ℚ) ≤ 0 ∧ (-3:ℤ) ≤ 0) ∧ paint_estimate (-1) 10 2 (1/10) 250 = (0, 0) :=
  ⟨⟨by norm_num, by norm_num⟩, (C7_degenerate_inputs (-1) (-3) (by norm_num) (by norm_num)).1⟩

/-- Claim C8: in the painting, tiles and generic branches the stored total
equals `round(materialCost + labourCost, 2)`; the plumbing branch has no
material/labour split and its total is the combined callout-plus-per-point
charge. -/
theorem C8_total_invariant (svc : String) (area : ℚ) (points : ℤ) :
    (∀ m l : ℚ, (generate_estimate svc area points).matCost = some m →
      (generate_estimate svc area points).labour = some l →
      quoted_total svc area points = round2 (m + l)) ∧
    ((generate_estimate svc area points).branch = .plumbing →
      (generate_estimate svc area points).matCost = none ∧
      (generate_estimate svc area points).labour = none ∧
      quoted_total svc area points = 500 + 300 * ((max points 1 : ℤ) : ℚ)) := by
  by_cases hpa : str_contains (str_lower svc) "paint" = true
  · have hg := gen_paint svc area points hpa
    constructor
    · intro m l hm hl
      rw [hg] at hm hl
      simp only [Option.some.injEq] at hm hl
      rw [quoted_total, hg, ← hm, ← hl]
    · intro hbr
      rw [hg] at hbr
      simp at hbr
  · simp only [Bool.not_eq_true] at hpa
    by_cases hti : str_contains (str_lower svc) "tile" = true
    · have hg := gen_tile svc area points hpa hti
      constructor
      · intro m l hm hl
        rw [hg] at hm hl
        simp only [Option.some.injEq] at hm hl
        rw [quoted_total, hg, ← hm, ← hl]
      · intro hbr
        rw [hg] at hbr
        simp at hbr
    · simp only [Bool.not_eq_true] at hti
      by_cases hpl : str_contains (str_lower svc) "plumb" = true
      · have hg := gen_plumb svc area points hpa hti hpl
        constructor
        · intro m l hm hl
          rw [hg] at hm
          simp at hm
        · intro hbr
          have hmx : (0:ℤ) < max points 1 :=
            lt_of_lt_of_le zero_lt_one (le_max_right points 1)
          refine ⟨by rw [hg], by rw [hg], ?_⟩
          rw [quoted_total, hg]
          show round2 (plumbing_estimate (max points 1) 500 300) = _
          rw [plumbing_value _ hmx,
            (by push_cast; ring :
              (500 + 300 * ((max points 1 : ℤ) : ℚ)) = ((500 + 300 * max points 1 : ℤ) : ℚ)),
            round2_eq_self (twoDec_int _)]
      · simp only [Bool.not_eq_true] at hpl
        have hg := gen_generic svc area points hpa hti hpl
        constructor
        · intro m l hm hl
          rw [hg] at hm hl
          simp only [Option.some.injEq] at hm hl
          rw [quoted_total, hg, ← hm, ← hl]
          show round2 (generic_labour area 80 + area * 150) =
            round2 (area * 150 + generic_labour area 80)
          rw [add_comm]
        · intro hbr
          rw [hg] at hbr
          simp at hbr

theorem C8_total_invariant_witness :
    (generate_estimate "Painting" 100 0).matCost = some 5500 ∧
    (generate_estimate "Painting" 100 0).labour = some 3000 ∧
    quoted_total "Painting" 100 0 = round2 (5500 + 3000) := by
  have hg := gen_paint "Painting" 100 0 (by decide)
  have hm : (generate_estimate "Painting" 100 0).matCost = some 5500 := by
    rw [hg, paint_at_100]
  have hl : (generate_estimate "Painting" 100 0).labour = some 3000 := by
    rw [hg, labour_at_100]
  exact ⟨hm, hl, (C8_total_invariant "Painting" 100 0).1 5500 3000 hm hl⟩

/-- Claim C9: with default parameters both components of `paint_estimate`
and `tiles_estimate` are non-decreasing in the area, and
`plumbing_estimate` is strictly increasing in the points for points ≥ 1. -/
theorem C9_monotonicity :
    (∀ a1 a2 : ℚ, a1 ≤ a2 →
      (paint_estimate a1 10 2 (1/10) 250).1 ≤ (paint_estimate a2 10 2 (1/10) 250).1 ∧
      (paint_estimate a1 10 2 (1/10) 250).2 ≤ (paint_estimate a2 10 2 (1/10) 250).2 ∧
      (tiles_estimate a1 (1/20) 600).1 ≤ (tiles_estimate a2 (1/20) 600).1 ∧
      (tiles_estimate a1 (1/20) 600).2 ≤ (tiles_estimate a2 (1/20) 600).2) ∧
    (∀ p1 p2 : ℤ, 1 ≤ p1 → p1 < p2 →
      plumbing_estimate p1 500 300 < plumbing_estimate p2 500 300) := by
  constructor
  · intro a1 a2 h
    simp only [paint_comps, tiles_comps]
    exact ⟨mono_piece h (by norm_num), mono_piece h (by norm_num),
      mono_piece h (by norm_num), mono_piece h (by norm_num)⟩
  · intro p1 p2 h1 h12
    rw [plumbing_value p1 (by omega), plumbing_value p2 (by omega)]
    have hc : (p1 : ℚ) < (p2 : ℚ) := by exact_mod_cast h12
    linarith

theorem C9_monotonicity_witness :
    (1:ℚ) ≤ 2 ∧
    (paint_estimate 1 10 2 (1/10) 250).1 ≤ (paint_estimate 2 10 2 (1/10) 250).1 ∧
    plumbing_estimate 1 500 300 < plumbing_estimate 2 500 300 :=
  ⟨by norm_num, (C9_monotonicity.1 1 2 (by norm_num)).1,
    C9_monotonicity.2 1 2 (by norm_num) (by norm_num)⟩

/-- Claim C10: for a painting request with positive litres (the two-decimal
value returned by `paint_estimate`), the total capacity of the suggested
cans, `10*c10 + 4*c4 + 1*c1` with the residue can included, covers the
litres requirement. -/
theorem C10_capacity_covers (a : ℚ)
    (h : 0 < (paint_estimate a 10 2 (1/10) 250).1) :
    (paint_estimate a 10 2 (1/10) 250).1 ≤
      10 * ((packPaint (paint_estimate a 10 2 (1/10) 250).1).1 : ℚ) +
      4 * ((packPaint (paint_estimate a 10 2 (1/10) 250).1).2.1 : ℚ) +
      1 * ((packPaint (paint_estimate a 10 2 (1/10) 250).1).2.2 : ℚ) := by
  obtain ⟨r1, r2, r3, hpack, -, h1, h2, h3, -, -, hlt⟩ :=
    packPaint_chain _ h.le (paint_estimate_twoDec a 10 2 (1/10) 250).1
  simp only [hpack]
  have k10 : (⌊(paint_estimate a 10 2 (1/10) 250).1 / (10:ℚ)⌋ : ℚ) * 10 =
      (paint_estimate a 10 2 (1/10) 250).1 - r1 := by rw [h1]; ring
  have k4 : (⌊r1 / (4:ℚ)⌋ : ℚ) * 4 = r1 - r2 := by rw [h2]; ring
  have k1 : (⌊r2 / (1:ℚ)⌋ : ℚ) * 1 = r2 - r3 := by rw [h3]; ring
  by_cases h3p : r3 > 0
  · rw [if_pos h3p]
    push_cast
    linarith
  · rw [if_neg h3p]
    have h3n : r3 ≤ 0 := not_lt.mp h3p
    linarith

theorem C10_capacity_covers_witness :
    0 < (paint_estimate 100 10 2 (1/10) 250).1 ∧
    (paint_estimate 100 10 2 (1/10) 250).1 ≤
      10 * ((packPaint (paint_estimate 100 10 2 (1/10) 250).1).1 : ℚ) +
      4 * ((packPaint (paint_estimate 100 10 2 (1/10) 250).1).2.1 : ℚ) +
      1 * ((packPaint (paint_estimate 100 10 2 (1/10) 250).1).2.2 : ℚ) :=
  ⟨by rw [paint_at_100]; norm_num,
    C10_capacity_covers 100 (by rw [paint_at_100]; norm_num)⟩

end SmartRenovation
